import Mathlib

/-!
Verification of the geoip-api dataset-lifecycle code.

The embedding below follows the Go source in src/unnamed/part_002 (the
latest variant of main.go present in the repository; it is the version the
spec describes: it has the 100 MB download LimitReader, the explicit
probe-handle Close before the rename, the non-negative interval check and
the getDatabase read-lock helper).  Pure fragments of the Go code become
Lean functions; the effectful download pipeline becomes a function of an
explicit environment recording the outcome of each external operation,
producing a result plus an ordered trace of effects; the reader/writer
concurrency of the handle swap becomes a small labelled transition system.
Machine integers (Go int / time.Duration are int64 on the linux builds the
Dockerfile produces) are modelled as Int with explicit wrapping where the
code can overflow.
-/

namespace GeoipApi

/-! ## String helpers (Go strings / path/filepath semantics, ASCII) -/

/-- Go `strings.HasPrefix`-style check used to build containment:
`leadMatch p l` is true when `p` is an initial segment of `l`. -/
def leadMatch : List Char → List Char → Bool
  | [], _ => true
  | _ :: _, [] => false
  | p :: ps, c :: cs => (p = c) && leadMatch ps cs

/-- Go `strings.Contains pat` over char lists: some tail of `l` starts with `pat`. -/
def containsChars (pat : List Char) : List Char → Bool
  | [] => pat.isEmpty
  | c :: rest => leadMatch pat (c :: rest) || containsChars pat rest

/-- Go `strings.HasSuffix l suf`. -/
def suffixMatch (suf l : List Char) : Bool :=
  leadMatch suf.reverse l.reverse

/-- Go `strings.ToLower`, restricted to ASCII (the only characters the
"city" marker test can be sensitive to). -/
def goToLower (l : List Char) : List Char :=
  l.map Char.toLower

/-- Go `path/filepath.Base` on unix paths: empty path gives ".", a path of
only slashes gives "/", otherwise the last component with trailing slashes
stripped. -/
def baseNameL (l : List Char) : List Char :=
  if l.isEmpty then ['.']
  else
    let r := (l.reverse).dropWhile (fun c => c = '/')
    if r.isEmpty then ['/']
    else ((r.takeWhile (fun c => c ≠ '/')).reverse)

/-! ## strconv.Atoi (64-bit) -/

def charDigit (c : Char) : Option Nat :=
  if '0' ≤ c ∧ c ≤ '9' then some (c.toNat - '0'.toNat) else none

def digitsValAux (acc : Nat) : List Char → Option Nat
  | [] => some acc
  | c :: rest =>
    match charDigit c with
    | none => none
    | some d => digitsValAux (acc * 10 + d) rest

/-- Value of a non-empty all-digit string; `none` on empty input or any
non-digit character. -/
def digitsVal : List Char → Option Nat
  | [] => none
  | l => digitsValAux 0 l

def int64Min : Int := -(2 ^ 63)
def int64Max : Int := 2 ^ 63 - 1

def inInt64 (i : Int) : Bool := decide (int64Min ≤ i ∧ i ≤ int64Max)

/-- Go `strconv.Atoi` on a 64-bit platform: optional sign, decimal digits,
error (`none`) on empty input, stray characters, or a value outside the
int64 range (Go reports ErrRange, which the caller treats as any error). -/
def goAtoi (s : String) : Option Int :=
  match s.toList with
  | [] => none
  | '-' :: rest =>
    (digitsVal rest).bind fun n =>
      if inInt64 (-(n : Int)) then some (-(n : Int)) else none
  | '+' :: rest =>
    (digitsVal rest).bind fun n =>
      if inInt64 (n : Int) then some (n : Int) else none
  | l =>
    (digitsVal l).bind fun n =>
      if inInt64 (n : Int) then some (n : Int) else none

/-! ## Update-interval resolution (part_002 lines 157-167) -/

/-- Embeds: `updateIntervalHours := 720; if s != "" { if i, err := Atoi(s);
err == nil && i >= 0 { updateIntervalHours = i } else { log; keep default } }`. -/
def resolveUpdateInterval (s : String) : Int :=
  if s = "" then 720
  else
    match goAtoi s with
    | some i => if 0 ≤ i then i else 720
    | none => 720

/-- Embeds `if updateIntervalHours > 0 { go periodicDatabaseUpdater(...) }`
(part_002 line 219). -/
def periodicStarted (updateIntervalHours : Int) : Bool :=
  decide (0 < updateIntervalHours)

/-! ## Startup freshness decision (part_002 lines 171-192) -/

/-- Two's-complement wrap into int64, as Go integer arithmetic does. -/
def wrap64 (i : Int) : Int :=
  (i + 2 ^ 63) % 2 ^ 64 - 2 ^ 63

/-- Go `time.Duration(updateIntervalHours) * time.Hour`: int64 nanoseconds,
wrapping on overflow. -/
def hoursToDurationNs (h : Int) : Int :=
  wrap64 (h * 3600000000000)

/-- Outcome of `os.Stat(dbPath)` as the startup code distinguishes it:
the file does not exist, the metadata read fails with some other error,
or it succeeds and yields an age `time.Since(ModTime())` in nanoseconds. -/
inductive StatRes
  | notExist
  | ioErr
  | ok (ageNs : Int)

/-- Embeds the `needsDownload` computation: not-exist wins, then the force
flag, then a metadata-read failure, else the strict age comparison
`time.Since(lastModified) > time.Duration(updateIntervalHours)*time.Hour`. -/
def needsDownload (st : StatRes) (force : Bool) (thresholdHours : Int) : Bool :=
  match st with
  | StatRes.notExist => true
  | StatRes.ioErr => if force then true else true
  | StatRes.ok age =>
    if force then true
    else decide (age > hoursToDurationNs thresholdHours)

/-! ## Edition selection (part_002 lines 368-373) -/

/-- Embeds: `editionID := "GeoLite2-Country"; if strings.Contains(
strings.ToLower(dbPath), "city") { editionID = "GeoLite2-City" }`.
Note the test runs on the whole configured path, not on its base name. -/
def editionOf (dbPath : List Char) : String :=
  if containsChars "city".toList (goToLower dbPath) then "GeoLite2-City"
  else "GeoLite2-Country"

/-! ## Download / verify / install pipeline (part_002 lines 368-485)

The pipeline is modelled as a function of an environment that fixes the
outcome of every external operation along its single execution path, and
it returns the Go error result together with an ordered trace of the
externally visible effects.  Only the successful rename touches the
canonical path; writes into the process-unique temporary directory (which
is removed on every exit path by the deferred RemoveAll) never do. -/

/-- One entry of the decompressed tar stream, as the loop sees it:
its header name, its byte content, and the outcomes of the `os.Create`
and `io.Copy` calls that are attempted if (and only if) this is the first
entry whose name ends in ".mmdb". -/
structure TarEntry where
  name : List Char
  content : List Nat
  createOk : Bool
  copyOk : Bool

/-- Result of gzip-decompressing and tar-decoding the byte stream that is
actually consumed (the capped prefix of the response body): either
`gzip.NewReader` fails, or it yields the entries `tr.Next` successively
returns, with `tailErr` recording whether, after those entries, `tr.Next`
returns a read error (`true`) or `io.EOF` (`false`). -/
inductive DecodeRes
  | gzipErr
  | arch (entries : List TarEntry) (tailErr : Bool)

/-- Outcome of the single `client.Get`: network failure, or a status code
with a response body (a byte stream). -/
inductive HttpRes
  | netErr
  | resp (status : Nat) (body : List Nat)

/-- Environment of one run of `downloadGeoLite2DB`. -/
structure DlEnv where
  dbPath : List Char
  http : HttpRes
  tmpDirOk : Bool
  decode : List Nat → DecodeRes
  openOk : Bool
  probe : Option String
  mkdirAllOk : Bool
  renameOk : Bool

/-- Externally visible effects, in program order.  `rename c` denotes the
successful `os.Rename` installing byte content `c` at the canonical path;
it is the only event that modifies the canonical path. -/
inductive Ev
  | httpGet (edition : String)
  | writeTemp (nm : List Char)
  | openProbe
  | warnMismatch (iso : String)
  | closeProbe
  | mkdirAll
  | rename (content : List Nat)
deriving DecidableEq

structure DlOut where
  res : Except String Unit
  trace : List Ev

/-- `maxDownloadSize = 100 * 1024 * 1024` (part_002 line 29). -/
def maxDownloadSize : Nat := 100 * 1024 * 1024

/-- Result of the tar-entry loop (part_002 lines 418-442). -/
inductive LoopRes
  | found (e : TarEntry)
  | errTar
  | errCreate
  | errCopy
  | noMmdb

/-- Embeds the entry loop: skip entries whose name does not end in ".mmdb";
at the first matching entry attempt create + copy and break; when the
listed entries are exhausted, a trailing read error of `tr.Next` yields
the tar-header error, plain `io.EOF` leaves `tempMMDBPath` empty. -/
def scanEntries (tailErr : Bool) : List TarEntry → LoopRes
  | [] => if tailErr then LoopRes.errTar else LoopRes.noMmdb
  | e :: rest =>
    if suffixMatch ".mmdb".toList e.name then
      if e.createOk then
        if e.copyOk then LoopRes.found e else LoopRes.errCopy
      else LoopRes.errCreate
    else scanEntries tailErr rest

/-- Verification and install of the extracted candidate (part_002 lines
448-484): structural open; probe `Country("8.8.8.8")`; a non-"US" answer
only logs a warning; the probe handle is closed (also on the probe-error
path) before `MkdirAll` and the atomic `os.Rename`. -/
def verifyAndInstall (env : DlEnv) (ed : String) (e : TarEntry) : DlOut :=
  let tr0 := [Ev.httpGet ed, Ev.writeTemp (baseNameL e.name)]
  if env.openOk then
    match env.probe with
    | none =>
      { res := Except.error "verification failed: lookup for test IP failed on new database"
        trace := tr0 ++ [Ev.openProbe, Ev.closeProbe] }
    | some iso =>
      let warnTr := if iso = "US" then ([] : List Ev) else [Ev.warnMismatch iso]
      let tr1 := tr0 ++ [Ev.openProbe] ++ warnTr ++ [Ev.closeProbe]
      if env.mkdirAllOk then
        if env.renameOk then
          { res := Except.ok (), trace := tr1 ++ [Ev.mkdirAll, Ev.rename e.content] }
        else
          { res := Except.error "failed to move verified database file"
            trace := tr1 ++ [Ev.mkdirAll] }
      else
        { res := Except.error "failed to create database directory", trace := tr1 }
  else
    { res := Except.error "verification failed: new database is invalid"
      trace := tr0 ++ [Ev.openProbe] }

/-- The part of the pipeline from the decoded archive onward. -/
def downloadCore (env : DlEnv) (ed : String) (dres : DecodeRes) : DlOut :=
  match dres with
  | DecodeRes.gzipErr =>
    { res := Except.error "failed to create gzip reader", trace := [Ev.httpGet ed] }
  | DecodeRes.arch entries tailErr =>
    match scanEntries tailErr entries with
    | LoopRes.errTar =>
      { res := Except.error "failed to read tar header", trace := [Ev.httpGet ed] }
    | LoopRes.errCreate =>
      { res := Except.error "failed to create temporary .mmdb file", trace := [Ev.httpGet ed] }
    | LoopRes.errCopy =>
      { res := Except.error "failed to write to temporary .mmdb file", trace := [Ev.httpGet ed] }
    | LoopRes.noMmdb =>
      { res := Except.error "could not find .mmdb file in archive", trace := [Ev.httpGet ed] }
    | LoopRes.found e => verifyAndInstall env ed e

/-- After a successful HTTP exchange: status check, temporary directory,
then gzip/tar decoding of `io.LimitReader(resp.Body, maxDownloadSize)` —
only the first `maxDownloadSize` bytes of the body are ever consumed. -/
def downloadAfterHttp (env : DlEnv) (ed : String) (status : Nat) (body : List Nat) : DlOut :=
  if status ≠ 200 then
    { res := Except.error "failed to download database: received non-OK status code"
      trace := [Ev.httpGet ed] }
  else if env.tmpDirOk then
    downloadCore env ed (env.decode (body.take maxDownloadSize))
  else
    { res := Except.error "failed to create temporary directory", trace := [Ev.httpGet ed] }

/-- Embeds `downloadGeoLite2DB` (part_002 lines 368-485). -/
def downloadGeoLite2DB (env : DlEnv) : DlOut :=
  let ed := editionOf env.dbPath
  match env.http with
  | HttpRes.netErr =>
    { res := Except.error "failed to download database", trace := [Ev.httpGet ed] }
  | HttpRes.resp status body => downloadAfterHttp env ed status body

/-- Effect of one trace event on the byte content at the canonical path:
only a successful rename replaces it. -/
def applyEv (canon : List Nat) : Ev → List Nat
  | Ev.rename c => c
  | _ => canon

/-- Byte content at the canonical path after a run with trace `tr`,
starting from content `canon`. -/
def runCanon (canon : List Nat) (tr : List Ev) : List Nat :=
  tr.foldl applyEv canon

/-! ## Request handlers (part_002 lines 548-709) -/

/-- The fields of a `geoip2.City` record that the handlers read:
`record.Country.IsoCode`, `record.City.Names["en"]` (empty string when the
key is absent, as a Go map read yields the zero value), and the
`Subdivisions[i].IsoCode` list. -/
structure CityRecord where
  countryIso : String
  cityNameEn : String
  subdivisionIsos : List String

/-- The field of a `geoip2.Country` record that the handlers read. -/
structure CountryRecord where
  countryIso : String

/-- Environment of one request: the path suffix, whether `net.ParseIP`
accepts it, whether `getDatabase` finds a loaded reader, the detected
database kind, and the outcome of the lookup the handler will perform
(`none` models a lookup error). -/
structure ReqEnv where
  ipStr : String
  parsedOk : Bool
  dbAvailable : Bool
  isCity : Bool
  cityLookup : Option CityRecord
  countryLookup : Option CountryRecord

inductive CountryOut
  | badRequest
  | unavailable
  | ok (ip country : String)

inductive CityOut
  | badRequest
  | unavailable
  | ok (ip country city region : String)

inductive RegionOut
  | badRequest
  | unavailable
  | ok (ip country region : String)

/-- Embeds `countryHandler` (part_002 lines 548-598). -/
def countryHandler (r : ReqEnv) : CountryOut :=
  if r.ipStr = "" then CountryOut.badRequest
  else if r.parsedOk then
    if r.dbAvailable then
      if r.isCity then
        match r.cityLookup with
        | none => CountryOut.ok r.ipStr "XX"
        | some rec =>
          CountryOut.ok r.ipStr (if rec.countryIso = "" then "XX" else rec.countryIso)
      else
        match r.countryLookup with
        | none => CountryOut.ok r.ipStr "XX"
        | some rec =>
          CountryOut.ok r.ipStr (if rec.countryIso = "" then "XX" else rec.countryIso)
    else CountryOut.unavailable
  else CountryOut.badRequest

/-- Embeds `cityHandler` (part_002 lines 600-654). -/
def cityHandler (r : ReqEnv) : CityOut :=
  if r.ipStr = "" then CityOut.badRequest
  else if r.parsedOk then
    if r.dbAvailable then
      if r.isCity then
        match r.cityLookup with
        | none => CityOut.ok r.ipStr "XX" "" ""
        | some rec =>
          CityOut.ok r.ipStr
            (if rec.countryIso = "" then "XX" else rec.countryIso)
            rec.cityNameEn
            (match rec.subdivisionIsos with
             | [] => ""
             | s :: _ => s)
      else
        match r.countryLookup with
        | none => CityOut.ok r.ipStr "XX" "" ""
        | some rec =>
          CityOut.ok r.ipStr (if rec.countryIso = "" then "XX" else rec.countryIso) "" ""
    else CityOut.unavailable
  else CityOut.badRequest

/-- Embeds `regionHandler` (part_002 lines 656-709). -/
def regionHandler (r : ReqEnv) : RegionOut :=
  if r.ipStr = "" then RegionOut.badRequest
  else if r.parsedOk then
    if r.dbAvailable then
      if r.isCity then
        match r.cityLookup with
        | none => RegionOut.ok r.ipStr "XX" ""
        | some rec =>
          RegionOut.ok r.ipStr
            (if rec.countryIso = "" then "XX" else rec.countryIso)
            (match rec.subdivisionIsos with
             | [] => ""
             | s :: _ => s)
      else
        match r.countryLookup with
        | none => RegionOut.ok r.ipStr "XX" ""
        | some rec =>
          RegionOut.ok r.ipStr (if rec.countryIso = "" then "XX" else rec.countryIso) ""
    else RegionOut.unavailable
  else RegionOut.badRequest

/-- The country ISO code delivered by the lookup the handler performs for
this request kind: `none` when the lookup errs, otherwise the record's
`Country.IsoCode`.  Plumbing for stating the sentinel claim. -/
def lookupIsoResult (r : ReqEnv) : Option String :=
  if r.isCity then r.cityLookup.map (fun rec => rec.countryIso)
  else r.countryLookup.map (fun rec => rec.countryIso)

/-- The country string each handler computes from its lookup outcome
(the block repeated verbatim in all three handlers): "XX" on a lookup
error or an empty ISO code, the ISO code otherwise. -/
def sentinelOf : Option String → String
  | none => "XX"
  | some iso => if iso = "" then "XX" else iso

/-! ## Handle lifecycle concurrency (part_002 lines 330-366 and 490-507)

Request handlers call `getDatabase` (RLock, load the current reader) and
hold the read lock through the lookup; `reloadDatabase` opens the new
reader outside the lock, then under the write lock swaps `dbValue` and
closes the old reader before releasing.  Go's `sync.RWMutex` admits any
number of readers when no writer holds the lock, and the writer only when
no reader does.  Handles are identified by allocation order. -/

inductive RSt
  | idle
  | holding (h : Nat)
deriving DecidableEq

inductive WSt
  | wIdle
  | wLocked
  | wSwapped (old : Nat)
  | wClosedOld
deriving DecidableEq

structure CSt where
  current : Nat
  nextId : Nat
  closed : List Nat
  readers : Nat → RSt
  writer : WSt

def updR (f : Nat → RSt) (i : Nat) (v : RSt) : Nat → RSt :=
  fun j => if j = i then v else f j

def initState : CSt :=
  { current := 0, nextId := 1, closed := [], readers := fun _ => RSt.idle
    writer := WSt.wIdle }

/-- One interleaving step.  `rAcq` is `getDatabase`'s RLock + load of the
current reader (atomic here because a writer cannot swap between the two:
it would need the write lock, excluded by the already-held read lock);
`rRel` is the deferred runlock; the four writer steps are
`reloadDatabase`'s Lock, `dbValue.Swap(newDB)` (the new reader is freshly
opened, hence a fresh id), `oldReader.Close()`, and the deferred Unlock. -/
inductive Step : CSt → CSt → Prop
  | rAcq (s : CSt) (i : Nat)
      (hIdle : s.readers i = RSt.idle) (hW : s.writer = WSt.wIdle) :
      Step s { s with readers := updR s.readers i (RSt.holding s.current) }
  | rRel (s : CSt) (i : Nat) (h : Nat)
      (hH : s.readers i = RSt.holding h) :
      Step s { s with readers := updR s.readers i RSt.idle }
  | wLock (s : CSt) (hW : s.writer = WSt.wIdle)
      (hNo : ∀ i h, s.readers i ≠ RSt.holding h) :
      Step s { s with writer := WSt.wLocked }
  | wSwap (s : CSt) (hW : s.writer = WSt.wLocked) :
      Step s { s with current := s.nextId, nextId := s.nextId + 1
                      writer := WSt.wSwapped s.current }
  | wClose (s : CSt) (old : Nat) (hW : s.writer = WSt.wSwapped old) :
      Step s { s with closed := old :: s.closed, writer := WSt.wClosedOld }
  | wUnlock (s : CSt) (hW : s.writer = WSt.wClosedOld) :
      Step s { s with writer := WSt.wIdle }

/-- States reachable from startup by any interleaving. -/
def Reach (s : CSt) : Prop :=
  Relation.ReflTransGen Step initState s

/-- Inductive invariant of the lifecycle system. -/
def LifeInv (s : CSt) : Prop :=
  s.current ∉ s.closed ∧
  s.current < s.nextId ∧
  (∀ h, h ∈ s.closed → h < s.nextId) ∧
  (∀ i h, s.readers i = RSt.holding h → h = s.current ∧ s.writer = WSt.wIdle) ∧
  (∀ old, s.writer = WSt.wSwapped old → old ≠ s.current ∧ old < s.nextId)

/-! ## Concrete environments used to instantiate the theorems -/

/-- A well-formed candidate entry: 100 MB tar.gz archives of MaxMind carry
one file named like `GeoLite2-Country_20240101/GeoLite2-Country.mmdb`. -/
def mmdbEntry : TarEntry :=
  { name := "GeoLite2-Country_20240101/GeoLite2-Country.mmdb".toList
    content := [7, 7], createOk := true, copyOk := true }

/-- Environment for a run whose candidate opens and probes fine but
answers "CN" instead of "US" for the test address. -/
def dlEnvC1 : DlEnv :=
  { dbPath := "/data/GeoLite2-Country.mmdb".toList
    http := HttpRes.resp 200 [1, 2, 3], tmpDirOk := true
    decode := fun _ => DecodeRes.arch [mmdbEntry] false
    openOk := true, probe := some "CN", mkdirAllOk := true, renameOk := true }

/-- Environment for a run whose archive decodes to no entries at all. -/
def dlEnvC2 : DlEnv :=
  { dbPath := "/data/GeoLite2-Country.mmdb".toList
    http := HttpRes.resp 200 [1, 2, 3], tmpDirOk := true
    decode := fun _ => DecodeRes.arch [] false
    openOk := true, probe := some "US", mkdirAllOk := true, renameOk := true }

/-- Environment whose response body exceeds the 100 MB cap while the
matching entry is fully decodable from the capped prefix (a tar.gz whose
first member ends within the first 100 MB of compressed data): the
decoder, fed only the capped prefix, still yields the entry. -/
def dlEnvC6big : DlEnv :=
  { dbPath := "/data/GeoLite2-Country.mmdb".toList
    http := HttpRes.resp 200 (List.replicate (maxDownloadSize + 1) 0)
    tmpDirOk := true
    decode := fun _ => DecodeRes.arch [mmdbEntry] false
    openOk := true, probe := some "US", mkdirAllOk := true, renameOk := true }

/-- Environment with a small body (cap-dependence witness). -/
def dlEnvC6a : DlEnv :=
  { dbPath := "/data/GeoLite2-Country.mmdb".toList
    http := HttpRes.resp 200 [5], tmpDirOk := true
    decode := fun _ => DecodeRes.arch [mmdbEntry] false
    openOk := true, probe := some "US", mkdirAllOk := true, renameOk := true }

/-- Environment whose (capped) stream is not a valid gzip stream. -/
def dlEnvC6gz : DlEnv :=
  { dbPath := "/data/GeoLite2-Country.mmdb".toList
    http := HttpRes.resp 200 [9], tmpDirOk := true
    decode := fun _ => DecodeRes.gzipErr
    openOk := true, probe := some "US", mkdirAllOk := true, renameOk := true }

/-- Environment for a fully successful run (probe answers "US"). -/
def dlEnvC8 : DlEnv :=
  { dbPath := "/data/GeoLite2-Country.mmdb".toList
    http := HttpRes.resp 200 [1, 2, 3], tmpDirOk := true
    decode := fun _ => DecodeRes.arch [mmdbEntry] false
    openOk := true, probe := some "US", mkdirAllOk := true, renameOk := true }

/-- The lifecycle state right after one reader acquires at startup. -/
def c9state1 : CSt :=
  { initState with readers := updR initState.readers 0 (RSt.holding initState.current) }

/-- A country request for 8.8.8.8 against a CountryOnly database. -/
def reqEnvC10 : ReqEnv :=
  { ipStr := "8.8.8.8", parsedOk := true, dbAvailable := true, isCity := false
    cityLookup := none, countryLookup := some { countryIso := "US" } }

/-! ## Helper lemmas -/

theorem wrap64_eq_self (x : Int) (h0 : int64Min ≤ x) (h1 : x ≤ int64Max) :
    wrap64 x = x := by
  have h63 : (2 : Int) ^ 63 = 9223372036854775808 := by norm_num
  have h64 : (2 : Int) ^ 64 = 18446744073709551616 := by norm_num
  unfold wrap64
  unfold int64Min at h0
  unfold int64Max at h1
  rw [h63, h64] at *
  rw [Int.emod_eq_of_lt (by omega) (by omega)]
  omega

theorem runCanon_no_rename (tr : List Ev) (c : List Nat)
    (h : ∀ x, Ev.rename x ∉ tr) : runCanon c tr = c := by
  induction tr generalizing c with
  | nil => rfl
  | cons e t ih =>
    have h1 : ∀ x, Ev.rename x ∉ t := fun x hx => h x (List.mem_cons_of_mem _ hx)
    have h2 : applyEv c e = c := by
      cases e
      case rename x => exact absurd (List.mem_cons_self _ _) (h x)
      all_goals rfl
    show List.foldl applyEv (applyEv c e) t = c
    rw [h2]
    exact ih c h1

/-! ## Claim C3: update-interval resolution -/

/-- Claim C3 (counterexample): the configured value "0" is non-positive,
yet the effective interval resolves to 0, not to the default 720 — the
code accepts any non-negative parsed value. -/
theorem interval_zero_counterex :
    resolveUpdateInterval "0" = 0 ∧ (0 : Int) ≠ 720 := by
  constructor
  · decide
  · decide

/-- Claim C3 (amended): a non-parseable or negative configured value (and
the empty configuration) resolves to the default 720; any parseable
non-negative value, including 0, is used as given. -/
theorem interval_resolution :
    (∀ s, goAtoi s = none → resolveUpdateInterval s = 720) ∧
    (∀ s i, goAtoi s = some i → i < 0 → resolveUpdateInterval s = 720) ∧
    (∀ s i, goAtoi s = some i → 0 ≤ i → resolveUpdateInterval s = i) ∧
    resolveUpdateInterval "" = 720 := by
  refine ⟨?_, ?_, ?_, rfl⟩
  · intro s hs
    by_cases h0 : s = ""
    · simp [resolveUpdateInterval, h0]
    · simp [resolveUpdateInterval, h0, hs]
  · intro s i hs hi
    have h0 : s ≠ "" := by
      rintro rfl
      simp [goAtoi] at hs
    simp [resolveUpdateInterval, h0, hs, Int.not_le.mpr hi]
  · intro s i hs hi
    have h0 : s ≠ "" := by
      rintro rfl
      simp [goAtoi] at hs
    simp [resolveUpdateInterval, h0, hs, hi]

/-- Witness for `interval_resolution` at concrete configurations. -/
theorem interval_resolution_w :
    resolveUpdateInterval "abc" = 720 ∧ resolveUpdateInterval "-5" = 720 ∧
      resolveUpdateInterval "24" = 24 :=
  ⟨interval_resolution.1 "abc" (by decide),
   interval_resolution.2.1 "-5" (-5) (by decide) (by decide),
   interval_resolution.2.2.1 "24" 24 (by decide) (by decide)⟩

/-! ## Claim C4: threshold 0 -/

/-- Claim C4 (counterexample): with threshold 0, no force flag, and an
existing file whose age is 5 hours, the startup check does request a
download — the claim asserts it would not. -/
theorem threshold_zero_counterex :
    needsDownload (StatRes.ok 18000000000000) false 0 = true ∧
      periodicStarted 0 = false := by
  constructor
  · decide
  · decide

/-- Claim C4 (amended): threshold 0 starts no periodic updater (it starts
exactly for positive thresholds); at startup a missing file still triggers
a download, but an existing file without the force flag is re-downloaded
exactly when its age is strictly positive — so threshold 0 does change
startup behaviour for existing files. -/
theorem threshold_zero_behavior :
    periodicStarted 0 = false ∧
    (∀ i : Int, periodicStarted i = decide (0 < i)) ∧
    (∀ force, needsDownload StatRes.notExist force 0 = true) ∧
    (∀ age : Int, needsDownload (StatRes.ok age) false 0 = decide (0 < age)) := by
  refine ⟨rfl, fun i => rfl, fun force => rfl, fun age => ?_⟩
  have h : hoursToDurationNs 0 = 0 := by decide
  simp only [needsDownload, h, Bool.if_false_left]
  rfl

/-! ## Claim C5: startup freshness decision -/

/-- Claim C5 (counterexample): with the (representable) configured
threshold 9223372036854775807 hours and a file of age 1 hour, the 64-bit
conversion `time.Duration(threshold) * time.Hour` wraps to -1 hour and the
check requests an update, although the age does not exceed the threshold. -/
theorem freshness_overflow_counterex :
    needsDownload (StatRes.ok 3600000000000) false 9223372036854775807 = true ∧
      ¬ ((3600000000000 : Int) > 9223372036854775807 * 3600000000000) := by
  constructor
  · decide
  · decide

/-- Claim C5 (amended): missing file → update; force flag → update;
metadata-read failure → update; otherwise the decision is the strict
comparison of the age with the wrapped 64-bit value of threshold×1h, which
coincides with "age exceeds the threshold in hours" whenever
threshold×3.6e12 ns fits in int64 (i.e. threshold ≤ 2562047 hours). -/
theorem freshness_decision :
    (∀ force th, needsDownload StatRes.notExist force th = true) ∧
    (∀ st th, needsDownload st true th = true) ∧
    (∀ force th, needsDownload StatRes.ioErr force th = true) ∧
    (∀ age th, needsDownload (StatRes.ok age) false th =
        decide (age > hoursToDurationNs th)) ∧
    (∀ age th : Int, 0 ≤ th → th * 3600000000000 ≤ int64Max →
        (needsDownload (StatRes.ok age) false th = true ↔
          age > th * 3600000000000)) := by
  refine ⟨fun force th => rfl, fun st th => ?_, fun force th => ?_,
    fun age th => rfl, fun age th h0 h1 => ?_⟩
  · cases st <;> rfl
  · cases force <;> rfl
  · have hk : (0 : Int) ≤ th * 3600000000000 := mul_nonneg h0 (by norm_num)
    have hmin : int64Min ≤ th * 3600000000000 := by
      unfold int64Min
      omega
    have hw := wrap64_eq_self (th * 3600000000000) hmin h1
    simp [needsDownload, hoursToDurationNs, hw]

/-- Witness for `freshness_decision` at a concrete in-range configuration. -/
theorem freshness_decision_w :
    needsDownload (StatRes.ok 7200000000000) false 1 = true ∧
      needsDownload StatRes.notExist false 720 = true :=
  ⟨(freshness_decision.2.2.2.2 7200000000000 1 (by decide) (by decide)).mpr
      (by decide),
   freshness_decision.1 false 720⟩

/-! ## Claim C7: edition selection -/

/-- Claim C7 (counterexample): for the configured path
"/citydata/GeoLite2-Country.mmdb" the requested edition is GeoLite2-City,
although the filename component "GeoLite2-Country.mmdb" does not contain
the marker "city" — the marker test runs on the whole path. -/
theorem edition_path_counterex :
    editionOf "/citydata/GeoLite2-Country.mmdb".toList = "GeoLite2-City" ∧
      containsChars "city".toList
        (goToLower (baseNameL "/citydata/GeoLite2-Country.mmdb".toList)) = false := by
  constructor
  · decide
  · decide

/-- Claim C7 (amended): the edition is GeoLite2-City exactly when the
whole configured path, lowercased, contains "city", and GeoLite2-Country
otherwise; every download run issues its request for exactly that
edition. -/
theorem edition_marker :
    (∀ p : List Char,
      (editionOf p = "GeoLite2-City" ↔
        containsChars "city".toList (goToLower p) = true) ∧
      (editionOf p = "GeoLite2-Country" ↔
        containsChars "city".toList (goToLower p) = false)) ∧
    (∀ env : DlEnv,
      (downloadGeoLite2DB env).trace.head? =
        some (Ev.httpGet (editionOf env.dbPath))) := by
  constructor
  · intro p
    unfold editionOf
    by_cases h : containsChars "city".toList (goToLower p) = true
    · simp [h]
    · simp [h]
  · intro env
    rcases henv : env.http with _ | ⟨status, body⟩
    · simp [downloadGeoLite2DB, henv]
    · simp only [downloadGeoLite2DB, henv]
      unfold downloadAfterHttp
      by_cases hst : status = 200
      · simp only [hst, ne_eq, not_true_eq_false, if_false, reduceIte]
        cases ht : env.tmpDirOk
        · simp
        · simp only [if_true]
          unfold downloadCore
          rcases env.decode (body.take maxDownloadSize) with _ | ⟨entries, tailErr⟩
          · simp
          · rcases hs : scanEntries tailErr entries with e | _ | _ | _ | _ <;>
              simp only [hs]
            · unfold verifyAndInstall
              cases ho : env.openOk
              · simp
              · rcases hp : env.probe with _ | iso
                · simp [hp]
                · simp only [hp, if_true]
                  by_cases hiso : iso = "US" <;>
                    cases hm : env.mkdirAllOk <;>
                    cases hr : env.renameOk <;>
                    simp [hiso, hm, hr]
            all_goals simp
      · simp [hst]

/-! ## Pipeline helper lemmas -/

theorem scan_all_nonmmdb (tailErr : Bool) (entries : List TarEntry)
    (h : ∀ e ∈ entries, suffixMatch ".mmdb".toList e.name = false) :
    scanEntries tailErr entries =
      if tailErr then LoopRes.errTar else LoopRes.noMmdb := by
  induction entries with
  | nil => rfl
  | cons e t ih =>
    have he := h e (List.mem_cons_self _ _)
    simp only [scanEntries, he, Bool.false_eq_true, if_false]
    exact ih fun x hx => h x (List.mem_cons_of_mem _ hx)

theorem verify_cases (env : DlEnv) (ed : String) (e : TarEntry) :
    ((verifyAndInstall env ed e).res = Except.ok () ∧
      ∃ w, (verifyAndInstall env ed e).trace =
          [Ev.httpGet ed, Ev.writeTemp (baseNameL e.name), Ev.openProbe] ++ w ++
            [Ev.closeProbe, Ev.mkdirAll, Ev.rename e.content] ∧
        (w = [] ∨ ∃ iso, w = [Ev.warnMismatch iso])) ∨
    ((verifyAndInstall env ed e).res ≠ Except.ok () ∧
      ∀ x, Ev.rename x ∉ (verifyAndInstall env ed e).trace) := by
  unfold verifyAndInstall
  cases ho : env.openOk
  · right
    constructor
    · simp
    · intro x
      simp
  · rcases hp : env.probe with _ | iso
    · right
      constructor
      · simp
      · intro x
        simp
    · by_cases hiso : iso = "US"
      · cases hm : env.mkdirAllOk
        · right
          constructor
          · simp
          · intro x
            simp [hiso]
        · cases hr : env.renameOk
          · right
            constructor
            · simp
            · intro x
              simp [hiso]
          · left
            constructor
            · simp
            · refine ⟨[], ?_, Or.inl rfl⟩
              simp [hiso]
      · cases hm : env.mkdirAllOk
        · right
          constructor
          · simp
          · intro x
            simp [hiso]
        · cases hr : env.renameOk
          · right
            constructor
            · simp
            · intro x
              simp [hiso]
          · left
            constructor
            · simp
            · refine ⟨[Ev.warnMismatch iso], ?_, Or.inr ⟨iso, rfl⟩⟩
              simp [hiso]

theorem download_cases (env : DlEnv) :
    (∃ e, downloadGeoLite2DB env = verifyAndInstall env (editionOf env.dbPath) e) ∨
    ((downloadGeoLite2DB env).res ≠ Except.ok () ∧
      ∀ x, Ev.rename x ∉ (downloadGeoLite2DB env).trace) := by
  rcases henv : env.http with _ | ⟨status, body⟩
  · right
    constructor
    · simp [downloadGeoLite2DB, henv]
    · intro x
      simp [downloadGeoLite2DB, henv]
  · simp only [downloadGeoLite2DB, henv, downloadAfterHttp]
    by_cases hst : status = 200
    · rw [hst]
      simp only [ne_eq, not_true_eq_false, reduceIte]
      cases ht : env.tmpDirOk
      · right
        constructor
        · simp
        · intro x
          simp
      · simp only [if_true]
        unfold downloadCore
        rcases hd : env.decode (body.take maxDownloadSize) with _ | ⟨entries, tailErr⟩ <;>
          simp only [hd]
        · right
          constructor
          · simp
          · intro x
            simp
        · rcases hs : scanEntries tailErr entries with e | _ | _ | _ | _ <;>
            simp only [hs]
          · left
            exact ⟨e, rfl⟩
          all_goals right
          all_goals constructor
          all_goals first
            | (intro x
               simp)
            | simp
    · rw [if_pos hst]
      right
      constructor
      · simp
      · intro x
        simp

theorem verify_err_no_rename (env : DlEnv) (ed : String) (e : TarEntry)
    (h : (verifyAndInstall env ed e).res ≠ Except.ok ()) :
    ∀ x, Ev.rename x ∉ (verifyAndInstall env ed e).trace := by
  rcases verify_cases env ed e with ⟨hok, _⟩ | ⟨_, hn⟩
  · exact absurd hok h
  · exact hn

theorem download_err_no_rename (env : DlEnv)
    (h : (downloadGeoLite2DB env).res ≠ Except.ok ()) :
    ∀ x, Ev.rename x ∉ (downloadGeoLite2DB env).trace := by
  rcases download_cases env with ⟨e, he⟩ | ⟨_, hn⟩
  · rw [he] at h ⊢
    exact verify_err_no_rename env _ e h
  · exact hn

theorem verify_ok_shape (env : DlEnv) (ed : String) (e : TarEntry)
    (h : (verifyAndInstall env ed e).res = Except.ok ()) :
    ∃ w, (verifyAndInstall env ed e).trace =
        [Ev.httpGet ed, Ev.writeTemp (baseNameL e.name), Ev.openProbe] ++ w ++
          [Ev.closeProbe, Ev.mkdirAll, Ev.rename e.content] ∧
      (w = [] ∨ ∃ iso, w = [Ev.warnMismatch iso]) := by
  rcases verify_cases env ed e with ⟨_, hw⟩ | ⟨hne, _⟩
  · exact hw
  · exact absurd h hne

theorem download_ok_found (env : DlEnv)
    (h : (downloadGeoLite2DB env).res = Except.ok ()) :
    ∃ e, downloadGeoLite2DB env = verifyAndInstall env (editionOf env.dbPath) e := by
  rcases download_cases env with he | ⟨hne, _⟩
  · exact he
  · exact absurd h hne

/-! ## Claim C1: probe mismatch is non-fatal -/

/-- Claim C1: when the pipeline has extracted a candidate and the
installer operations succeed, a candidate that opens and whose probe query
succeeds with a non-"US" country is still installed at the canonical path
and the run returns success with a warning recorded; and the run is
rejected exactly when the structural open or the probe query itself
fails. -/
theorem mismatch_not_fatal (env : DlEnv) (body : List Nat)
    (entries : List TarEntry) (tailErr : Bool) (e : TarEntry)
    (hHttp : env.http = HttpRes.resp 200 body) (hTmp : env.tmpDirOk = true)
    (hDec : env.decode (body.take maxDownloadSize) = DecodeRes.arch entries tailErr)
    (hScan : scanEntries tailErr entries = LoopRes.found e)
    (hMk : env.mkdirAllOk = true) (hRen : env.renameOk = true) :
    (∀ iso, env.openOk = true → env.probe = some iso → iso ≠ "US" →
      (downloadGeoLite2DB env).res = Except.ok () ∧
      Ev.warnMismatch iso ∈ (downloadGeoLite2DB env).trace ∧
      ∀ c, runCanon c (downloadGeoLite2DB env).trace = e.content) ∧
    ((downloadGeoLite2DB env).res = Except.ok () ↔
      (env.openOk = true ∧ env.probe ≠ none)) := by
  have hred : downloadGeoLite2DB env = verifyAndInstall env (editionOf env.dbPath) e := by
    unfold downloadGeoLite2DB downloadAfterHttp downloadCore
    rw [hHttp]
    simp only [ne_eq, not_true_eq_false, reduceIte, hTmp, if_true, hDec, hScan]
  rw [hred]
  constructor
  · intro iso hO hP hne
    unfold verifyAndInstall
    rw [hO, hP]
    simp only [if_true, hMk, hRen, hne, if_false, reduceIte]
    refine ⟨?_, ?_, ?_⟩
    · simp
    · simp
    · intro c
      simp [runCanon, applyEv]
  · unfold verifyAndInstall
    cases ho : env.openOk
    · simp
    · rcases hp : env.probe with _ | iso
      · simp
      · by_cases hiso : iso = "US" <;> simp [hiso, hMk, hRen]

/-- Witness for `mismatch_not_fatal`: concrete run probing "CN". -/
theorem mismatch_not_fatal_w :
    (downloadGeoLite2DB dlEnvC1).res = Except.ok () ∧
      Ev.warnMismatch "CN" ∈ (downloadGeoLite2DB dlEnvC1).trace ∧
      runCanon [0] (downloadGeoLite2DB dlEnvC1).trace = mmdbEntry.content := by
  have h := (mismatch_not_fatal dlEnvC1 [1, 2, 3] [mmdbEntry] false mmdbEntry
      rfl rfl rfl rfl rfl rfl).1 "CN" rfl rfl (by decide)
  exact ⟨h.1, h.2.1, h.2.2 [0]⟩

/-! ## Claim C2: no matching entry rejects, canonical path untouched -/

/-- Claim C2: if the decoded archive contains no entry whose name ends in
".mmdb", the run returns a download error and the canonical path content
is byte-for-byte unchanged; moreover on every error path of the pipeline
the rename is never executed, so the canonical path is unchanged. -/
theorem no_entry_download_error :
    (∀ env : DlEnv,
      (∀ bs entries tailErr, env.decode bs = DecodeRes.arch entries tailErr →
        ∀ e ∈ entries, suffixMatch ".mmdb".toList e.name = false) →
      (downloadGeoLite2DB env).res ≠ Except.ok () ∧
      ∀ c, runCanon c (downloadGeoLite2DB env).trace = c) ∧
    (∀ (env : DlEnv) (c : List Nat),
      (downloadGeoLite2DB env).res ≠ Except.ok () →
      runCanon c (downloadGeoLite2DB env).trace = c) := by
  have hpart2 : ∀ (env : DlEnv) (c : List Nat),
      (downloadGeoLite2DB env).res ≠ Except.ok () →
      runCanon c (downloadGeoLite2DB env).trace = c := by
    intro env c h
    exact runCanon_no_rename _ c fun x => download_err_no_rename env h x
  refine ⟨?_, hpart2⟩
  intro env hno
  have herr : (downloadGeoLite2DB env).res ≠ Except.ok () := by
    rcases henv : env.http with _ | ⟨status, body⟩
    · simp [downloadGeoLite2DB, henv]
    · simp only [downloadGeoLite2DB, henv, downloadAfterHttp]
      by_cases hst : status = 200
      · rw [hst]
        simp only [ne_eq, not_true_eq_false, reduceIte]
        cases ht : env.tmpDirOk
        · simp
        · simp only [if_true]
          unfold downloadCore
          rcases hd : env.decode (body.take maxDownloadSize) with _ | ⟨entries, tailErr⟩ <;>
            simp only [hd]
          · simp
          · simp only [scan_all_nonmmdb tailErr entries (hno _ _ _ hd)]
            cases tailErr <;> simp
      · rw [if_pos hst]
        simp
  exact ⟨herr, fun c => hpart2 env c herr⟩

/-- Witness for `no_entry_download_error`: an archive decoding to no
entries at all. -/
theorem no_entry_download_error_w :
    (downloadGeoLite2DB dlEnvC2).res ≠ Except.ok () ∧
      runCanon [9] (downloadGeoLite2DB dlEnvC2).trace = [9] := by
  have hno : ∀ bs entries tailErr,
      dlEnvC2.decode bs = DecodeRes.arch entries tailErr →
      ∀ e ∈ entries, suffixMatch ".mmdb".toList e.name = false := by
    intro bs entries tailErr h e he
    have : DecodeRes.arch ([] : List TarEntry) false = DecodeRes.arch entries tailErr := h
    cases this
    simp at he
  have h := no_entry_download_error.1 dlEnvC2 hno
  exact ⟨h.1, h.2 [9]⟩

/-! ## Claim C6: the 100 MB size cap -/

/-- Claim C6 (counterexample): a response body exceeding the 100 MB cap
whose matching entry is fully decodable from the capped prefix is still
accepted: the run returns success, not a download error. -/
theorem size_cap_counterex :
    (List.replicate (maxDownloadSize + 1) (0 : Nat)).length > maxDownloadSize ∧
      dlEnvC6big.http =
        HttpRes.resp 200 (List.replicate (maxDownloadSize + 1) 0) ∧
      (downloadGeoLite2DB dlEnvC6big).res = Except.ok () := by
  refine ⟨?_, rfl, rfl⟩
  rw [List.length_replicate]
  omega

/-- Claim C6 (amended): the response body is always read through the
100 MB-bounded reader — the outcome of a run depends only on the first
100 MB of the body — and when the capped stream fails to decode (here:
gzip failure) the run returns a DownloadError; but a body exceeding the
cap whose matching entry lies within the capped prefix still succeeds. -/
theorem size_cap_bounded :
    (∀ (env : DlEnv) (status : Nat) (body body2 : List Nat),
      env.http = HttpRes.resp status body →
      body.take maxDownloadSize = body2.take maxDownloadSize →
      downloadGeoLite2DB env =
        downloadGeoLite2DB { env with http := HttpRes.resp status body2 }) ∧
    (∀ (env : DlEnv) (body : List Nat),
      env.http = HttpRes.resp 200 body → env.tmpDirOk = true →
      env.decode (body.take maxDownloadSize) = DecodeRes.gzipErr →
      (downloadGeoLite2DB env).res =
        Except.error "failed to create gzip reader") := by
  constructor
  · intro env status body body2 hh heq
    unfold downloadGeoLite2DB downloadAfterHttp
    rw [hh]
    simp only [heq]
    rfl
  · intro env body hh ht hd
    unfold downloadGeoLite2DB downloadAfterHttp
    rw [hh]
    simp only [ne_eq, not_true_eq_false, reduceIte, ht, if_true]
    unfold downloadCore
    rw [hd]

/-- Witness for `size_cap_bounded` at concrete environments. -/
theorem size_cap_bounded_w :
    downloadGeoLite2DB dlEnvC6a =
        downloadGeoLite2DB { dlEnvC6a with http := HttpRes.resp 200 [5] } ∧
      (downloadGeoLite2DB dlEnvC6gz).res =
        Except.error "failed to create gzip reader" :=
  ⟨size_cap_bounded.1 dlEnvC6a 200 [5] [5] rfl rfl,
   size_cap_bounded.2 dlEnvC6gz [9] rfl rfl rfl⟩

/-! ## Claim C8: probe handle closed before the rename -/

/-- Claim C8: on every successful run the trace is exactly http-get,
temp write, probe open, an optional mismatch warning, then the probe
close followed by the directory creation and the rename — so the probe
handle is closed immediately after the probe and strictly before the
candidate is moved to the canonical path. -/
theorem probe_close_before_rename (env : DlEnv)
    (h : (downloadGeoLite2DB env).res = Except.ok ()) :
    ∃ ed nm w c, (downloadGeoLite2DB env).trace =
        [Ev.httpGet ed, Ev.writeTemp nm, Ev.openProbe] ++ w ++
          [Ev.closeProbe, Ev.mkdirAll, Ev.rename c] ∧
      (w = [] ∨ ∃ iso, w = [Ev.warnMismatch iso]) := by
  obtain ⟨e, he⟩ := download_ok_found env h
  rw [he] at h ⊢
  obtain ⟨w, hw, hwor⟩ := verify_ok_shape env _ e h
  exact ⟨editionOf env.dbPath, baseNameL e.name, w, e.content, hw, hwor⟩

/-- Witness for `probe_close_before_rename`: a concrete successful run. -/
theorem probe_close_before_rename_w :
    (downloadGeoLite2DB dlEnvC8).res = Except.ok () ∧
      ∃ ed nm w c, (downloadGeoLite2DB dlEnvC8).trace =
        [Ev.httpGet ed, Ev.writeTemp nm, Ev.openProbe] ++ w ++
          [Ev.closeProbe, Ev.mkdirAll, Ev.rename c] ∧
        (w = [] ∨ ∃ iso, w = [Ev.warnMismatch iso]) :=
  ⟨rfl, probe_close_before_rename dlEnvC8 rfl⟩

/-! ## Claim C9: no use after release -/

theorem lifeInv_init : LifeInv initState := by
  refine ⟨?_, ?_, ?_, ?_, ?_⟩
  · simp [initState]
  · simp [initState]
  · intro h hh
    simp [initState] at hh
  · intro i h hh
    simp [initState] at hh
  · intro old hw
    simp [initState] at hw

theorem lifeInv_step (s s2 : CSt) (hs : LifeInv s) (hstep : Step s s2) :
    LifeInv s2 := by
  obtain ⟨h1, h2, h3, h4, h5⟩ := hs
  cases hstep with
  | rAcq i hIdle hW =>
    refine ⟨h1, h2, h3, ?_, ?_⟩
    · intro j h hj
      by_cases hji : j = i
      · subst hji
        simp only [updR, if_pos rfl] at hj
        cases hj
        exact ⟨rfl, hW⟩
      · simp only [updR, if_neg hji] at hj
        exact h4 j h hj
    · intro old hw
      exact h5 old hw
  | rRel i h0 hH =>
    refine ⟨h1, h2, h3, ?_, h5⟩
    intro j h hj
    by_cases hji : j = i
    · subst hji
      simp only [updR, if_pos rfl] at hj
      exact RSt.noConfusion hj
    · simp only [updR, if_neg hji] at hj
      exact h4 j h hj
  | wLock hW hNo =>
    refine ⟨h1, h2, h3, ?_, ?_⟩
    · intro j h hj
      exact absurd hj (hNo j h)
    · intro old hw
      exact WSt.noConfusion hw
  | wSwap hW =>
    refine ⟨?_, ?_, ?_, ?_, ?_⟩
    · intro hc
      exact absurd (h3 _ hc) (lt_irrefl _)
    · exact Nat.lt_succ_self _
    · intro h hh
      exact Nat.lt_succ_of_lt (h3 h hh)
    · intro j h hj
      have h6 := (h4 j h hj).2
      rw [hW] at h6
      exact WSt.noConfusion h6
    · intro old hw
      cases hw
      exact ⟨Nat.ne_of_lt h2, Nat.lt_succ_of_lt h2⟩
  | wClose old hW =>
    obtain ⟨hne, hlt⟩ := h5 old hW
    refine ⟨?_, h2, ?_, ?_, ?_⟩
    · intro hc
      rcases List.mem_cons.mp hc with hc1 | hc2
      · exact hne hc1.symm
      · exact h1 hc2
    · intro h hh
      rcases List.mem_cons.mp hh with hh1 | hh2
      · subst hh1
        exact hlt
      · exact h3 h hh2
    · intro j h hj
      have h6 := (h4 j h hj).2
      rw [hW] at h6
      exact WSt.noConfusion h6
    · intro o ho
      exact WSt.noConfusion ho
  | wUnlock hW =>
    refine ⟨h1, h2, h3, ?_, ?_⟩
    · intro j h hj
      have h6 := (h4 j h hj).2
      rw [hW] at h6
      exact WSt.noConfusion h6
    · intro o ho
      exact WSt.noConfusion ho

theorem reach_lifeInv (s : CSt) (hs : Reach s) : LifeInv s := by
  induction hs with
  | refl => exact lifeInv_init
  | tail hab hbc ih => exact lifeInv_step _ _ ih hbc

/-- Claim C9: in every state reachable by any interleaving of request
handlers (acquire/release of the read lock around their lookup) with the
reload swap, a reader holding a handle never holds a closed one — the old
handle is closed only under the write lock, which excludes in-flight
readers, so a swap never invalidates an in-progress query. -/
theorem no_use_after_release (s : CSt) (hs : Reach s) (i h : Nat)
    (hold : s.readers i = RSt.holding h) : h ∉ s.closed := by
  obtain ⟨h1, _, _, h4, _⟩ := reach_lifeInv s hs
  obtain ⟨hc, _⟩ := h4 i h hold
  rw [hc]
  exact h1

/-- Witness for `no_use_after_release`: the state reached by one acquire
from startup. -/
theorem no_use_after_release_w :
    c9state1.readers 0 = RSt.holding 0 ∧ (0 : Nat) ∉ c9state1.closed :=
  ⟨rfl, no_use_after_release c9state1
      (Relation.ReflTransGen.single (Step.rAcq initState 0 rfl rfl)) 0 0 rfl⟩

/-! ## Claim C10: the country field and the "XX" sentinel -/

theorem countryHandler_ok (r : ReqEnv) (ip c : String)
    (h : countryHandler r = CountryOut.ok ip c) :
    c = sentinelOf (lookupIsoResult r) := by
  obtain ⟨ipStr, parsedOk, dbAvailable, isCity, cl, col⟩ := r
  by_cases h0 : ipStr = "" <;>
    cases parsedOk <;> cases dbAvailable <;> cases isCity <;>
    rcases cl with _ | recC <;> rcases col with _ | recY <;>
    simp [countryHandler, lookupIsoResult, sentinelOf, h0] at h ⊢ <;>
    exact h.2.symm

theorem cityHandler_ok (r : ReqEnv) (ip c ci re : String)
    (h : cityHandler r = CityOut.ok ip c ci re) :
    c = sentinelOf (lookupIsoResult r) := by
  obtain ⟨ipStr, parsedOk, dbAvailable, isCity, cl, col⟩ := r
  by_cases h0 : ipStr = "" <;>
    cases parsedOk <;> cases dbAvailable <;> cases isCity <;>
    rcases cl with _ | recC <;> rcases col with _ | recY <;>
    simp [cityHandler, lookupIsoResult, sentinelOf, h0] at h ⊢ <;>
    exact h.2.1.symm

theorem regionHandler_ok (r : ReqEnv) (ip c re : String)
    (h : regionHandler r = RegionOut.ok ip c re) :
    c = sentinelOf (lookupIsoResult r) := by
  obtain ⟨ipStr, parsedOk, dbAvailable, isCity, cl, col⟩ := r
  by_cases h0 : ipStr = "" <;>
    cases parsedOk <;> cases dbAvailable <;> cases isCity <;>
    rcases cl with _ | recC <;> rcases col with _ | recY <;>
    simp [regionHandler, lookupIsoResult, sentinelOf, h0] at h ⊢ <;>
    exact h.2.1.symm

theorem sentinel_props (lr : Option String) (c : String)
    (hc : c = sentinelOf lr) :
    c ≠ "" ∧
      (lr ≠ some "XX" → (c = "XX" ↔ (lr = none ∨ lr = some ""))) ∧
      (∀ iso, lr = some iso → iso ≠ "" → c = iso) := by
  subst hc
  rcases lr with _ | iso
  · refine ⟨by decide, fun _ => ?_, ?_⟩
    · exact iff_of_true rfl (Or.inl rfl)
    · intro iso hiso
      exact Option.noConfusion hiso
  · by_cases hiso : iso = ""
    · subst hiso
      refine ⟨by decide, fun _ => ?_, ?_⟩
      · exact iff_of_true (by decide) (Or.inr rfl)
      · intro iso2 h2 h3
        cases h2
        exact absurd rfl h3
    · have hv : sentinelOf (some iso) = iso := by
        simp [sentinelOf, hiso]
      refine ⟨?_, fun hxx => ?_, ?_⟩
      · rw [hv]
        exact hiso
      · rw [hv]
        constructor
        · intro hx
          exact absurd (hx ▸ rfl : some iso = some "XX") hxx
        · intro hx
          rcases hx with hx | hx
          · exact Option.noConfusion hx
          · cases hx
            exact absurd rfl hiso
      · intro iso2 h2 h3
        cases h2
        exact hv

/-- Claim C10: whenever any of the three endpoints answers a request with
a country field, that field is never empty; it is the sentinel "XX"
exactly when the lookup erred or the record ISO code is empty (provided
the dataset record is not itself the literal "XX"), and it is the record
ISO code otherwise — uniformly across the country, city and region
handlers. -/
theorem country_field_sentinel (r : ReqEnv) (ip c : String)
    (h : countryHandler r = CountryOut.ok ip c ∨
      (∃ ci re, cityHandler r = CityOut.ok ip c ci re) ∨
      (∃ re, regionHandler r = RegionOut.ok ip c re)) :
    c ≠ "" ∧
      (lookupIsoResult r ≠ some "XX" →
        (c = "XX" ↔ (lookupIsoResult r = none ∨ lookupIsoResult r = some ""))) ∧
      (∀ iso, lookupIsoResult r = some iso → iso ≠ "" → c = iso) := by
  rcases h with h | ⟨ci, re, h⟩ | ⟨re, h⟩
  · exact sentinel_props _ c (countryHandler_ok r ip c h)
  · exact sentinel_props _ c (cityHandler_ok r ip c ci re h)
  · exact sentinel_props _ c (regionHandler_ok r ip c re h)

/-- Witness for `country_field_sentinel`: 8.8.8.8 against a CountryOnly
database answering "US". -/
theorem country_field_sentinel_w :
    countryHandler reqEnvC10 = CountryOut.ok "8.8.8.8" "US" ∧ "US" ≠ "" :=
  ⟨rfl, (country_field_sentinel reqEnvC10 "8.8.8.8" "US" (Or.inl rfl)).1⟩

end GeoipApi
